import Mathlib

/-!
Verification of the imgpkg bundle copy/pull engine specification against a
shallow embedding of the repository's code. Pure Go functions present in the
repository are translated directly; parts of the engine whose implementation
is only exercised by the repository's tests are modelled from the
specification text (their doc comments say so explicitly).
-/

namespace Imgpkg

/-- A content digest: an (algorithm, hex) pair, e.g. sha256 plus hex bytes. -/
structure Digest where
  algorithm : String
  hex : String
deriving DecidableEq, Repr

/-! ## Retry (pkg/imgpkg/image, function `Retry`)

Translated from the source:

```
func Retry(doFunc func() error) error {
  var lastErr error
  for i := 0; i < 5; i++ {
    lastErr = doFunc()
    if lastErr == nil { return nil }
    if tranErr, ok := lastErr.(*transport.Error); ok {
      if len(tranErr.Errors) > 0 {
        if tranErr.Errors[0].Code == transport.UnauthorizedErrorCode {
          return fmt.Errorf("Non-retryable error: %s", lastErr)
        }
      }
    }
    if nonRetryableError, ok := lastErr.(imagetar.TarEntryNotFoundError); ok {
      return nonRetryableError
    }
    time.Sleep(1 * time.Second)
  }
  return fmt.Errorf("Retried 5 times: %s", lastErr)
}
```
-/

/-- A `transport.Error` from go-containerregistry as far as `Retry` can see
it: the HTTP status code and the list of registry error codes. `Retry` only
looks at the first error code. -/
structure TransportError where
  statusCode : Nat
  errorCodes : List String
deriving DecidableEq, Repr

/-- The error values that can reach `Retry`: a transport error, the archive
backend's tar-entry-not-found error, or any other Go error (abstracted to its
message). -/
inductive GoError where
  | transport (e : TransportError)
  | tarEntryNotFound (path : String)
  | plain (msg : String)
deriving DecidableEq, Repr

/-- Abstraction of Go's `%s` formatting of an error value; the exact message
bodies are irrelevant to `Retry`, which only wraps them. -/
def errString : GoError → String
  | .transport e => "transport error: status " ++ toString e.statusCode
  | .tarEntryNotFound p => "file is not found in tar: " ++ p
  | .plain m => m

/-- The `lastErr.(*transport.Error)` branch of `Retry`: true iff the error is
a transport error whose first registry error code is UNAUTHORIZED. -/
def isUnauthorizedTransport : GoError → Bool
  | .transport e =>
    match e.errorCodes with
    | c :: _ => c == "UNAUTHORIZED"
    | [] => false
  | _ => false

/-- The `lastErr.(imagetar.TarEntryNotFoundError)` branch of `Retry`. -/
def isTarEntryNotFound : GoError → Bool
  | .tarEntryNotFound _ => true
  | _ => false

/-- Outcome of a `Retry` run: how many times `doFunc` was attempted, how many
one-second sleeps were executed, and the returned error (`none` = nil). -/
structure RetryResult where
  attempts : Nat
  sleeps : Nat
  err : Option String
deriving DecidableEq, Repr

/-- The loop body of `Retry`, with `doFunc` embedded as a function from the
attempt index to its result (`none` = success). `i` is the current loop index
and the second argument the number of remaining iterations. -/
def retryAux (f : Nat → Option GoError) : Nat → Nat → RetryResult
  | _, 0 => ⟨0, 0, none⟩
  | i, Nat.succ r =>
    match f i with
    | none => ⟨1, 0, none⟩
    | some e =>
      if isUnauthorizedTransport e then
        ⟨1, 0, some ("Non-retryable error: " ++ errString e)⟩
      else if isTarEntryNotFound e then
        ⟨1, 0, some (errString e)⟩
      else if r = 0 then
        ⟨1, 1, some ("Retried 5 times: " ++ errString e)⟩
      else
        let rest := retryAux f (i + 1) r
        ⟨rest.attempts + 1, rest.sleeps + 1, rest.err⟩

/-- `Retry` from pkg/imgpkg/image: at most five attempts. -/
def Retry (f : Nat → Option GoError) : RetryResult := retryAux f 0 5

/-- The claim's classifier (its own words, not the code's): an HTTP client
error other than 408/429, as the Gateway would classify it. Used only to
state the claim; the `Retry` source contains no such classification. -/
def specClientErrorStatus (status : Nat) : Bool :=
  decide (400 ≤ status) && decide (status < 500) && status != 408 && status != 429

/-- An error a retry loop never short-circuits on, per the source: neither an
unauthorized transport error nor a tar-entry-not-found error. -/
def shortCircuits (e : GoError) : Bool :=
  isUnauthorizedTransport e || isTarEntryNotFound e

theorem retryAux_attempts_le (f : Nat → Option GoError) :
    ∀ r i, (retryAux f i r).attempts ≤ r := by
  intro r
  induction r with
  | zero => intro i; simp [retryAux]
  | succ r ih =>
    intro i
    cases hf : f i with
    | none => simp [retryAux, hf]
    | some e =>
      by_cases h1 : isUnauthorizedTransport e
      · simp [retryAux, hf, h1]
      · by_cases h2 : isTarEntryNotFound e
        · simp [retryAux, hf, h1, h2]
        · by_cases h3 : r = 0
          · simp [retryAux, hf, h1, h2, h3]
          · have := ih (i + 1)
            simp only [retryAux, hf, h1, h2, h3, Bool.false_eq_true, if_false]
            omega

/-- If the first `k` attempts (from index `i`) all fail with retryable
errors, the loop's behaviour is decided by attempt `i + k`. -/
theorem retryAux_firstStop (f : Nat → Option GoError) :
    ∀ k i r, k < r →
      (∀ j, j < k → ∃ e, f (i + j) = some e ∧ shortCircuits e = false) →
      ((f (i + k) = none → retryAux f i r = ⟨k + 1, k, none⟩) ∧
       (∀ e, f (i + k) = some e → isUnauthorizedTransport e = true →
          retryAux f i r = ⟨k + 1, k, some ("Non-retryable error: " ++ errString e)⟩) ∧
       (∀ e, f (i + k) = some e → isUnauthorizedTransport e = false →
          isTarEntryNotFound e = true →
          retryAux f i r = ⟨k + 1, k, some (errString e)⟩)) := by
  intro k
  induction k with
  | zero =>
    intro i r hr _
    obtain ⟨r', rfl⟩ : ∃ r', r = r' + 1 := ⟨r - 1, by omega⟩
    refine ⟨?_, ?_, ?_⟩
    · intro hnone
      simp only [Nat.add_zero] at hnone
      simp [retryAux, hnone]
    · intro e hfe hu
      simp only [Nat.add_zero] at hfe
      simp [retryAux, hfe, hu]
    · intro e hfe hu ht
      simp only [Nat.add_zero] at hfe
      simp [retryAux, hfe, hu, ht]
  | succ k ih =>
    intro i r hr hpre
    obtain ⟨r', rfl⟩ : ∃ r', r = r' + 1 := ⟨r - 1, by omega⟩
    have hr' : ¬ r' = 0 := by omega
    obtain ⟨e0, hfe0, hsc0⟩ := hpre 0 (Nat.succ_pos k)
    simp only [Nat.add_zero] at hfe0
    have hu0 : isUnauthorizedTransport e0 = false := by
      simp only [shortCircuits, Bool.or_eq_false_iff] at hsc0
      exact hsc0.1
    have ht0 : isTarEntryNotFound e0 = false := by
      simp only [shortCircuits, Bool.or_eq_false_iff] at hsc0
      exact hsc0.2
    have hshift : ∀ j, j < k → ∃ e, f (i + 1 + j) = some e ∧ shortCircuits e = false := by
      intro j hj
      have := hpre (j + 1) (by omega)
      simpa [Nat.add_assoc, Nat.add_comm 1 j] using this
    have ihs := ih (i + 1) r' (by omega) hshift
    have hidx : i + 1 + k = i + (k + 1) := by omega
    have hstep : retryAux f i (r' + 1) =
        ⟨(retryAux f (i + 1) r').attempts + 1,
         (retryAux f (i + 1) r').sleeps + 1,
         (retryAux f (i + 1) r').err⟩ := by
      simp [retryAux, hfe0, hu0, ht0, hr']
    refine ⟨?_, ?_, ?_⟩
    · intro hnone
      rw [← hidx] at hnone
      rw [hstep, ihs.1 hnone]
    · intro e hfe hu
      rw [← hidx] at hfe
      rw [hstep, ihs.2.1 e hfe hu]
    · intro e hfe hu ht
      rw [← hidx] at hfe
      rw [hstep, ihs.2.2 e hfe hu ht]

/-- The operation used in the C3 counterexample: every attempt fails with an
HTTP 404 transport error — a client error that is neither 408 nor 429, and
is neither an unauthorized error nor a tar-entry-not-found error. -/
def clientErrorFun : Nat → Option GoError :=
  fun _ => some (.transport ⟨404, ["MANIFEST_UNKNOWN"]⟩)

/-- C3 counterexample: the claim says any error classified as a client error
other than HTTP 408/429 short-circuits the retry loop without further
attempts. On an operation that always fails with a 404 transport error (a
client error, not unauthorized, not tar-entry-not-found), `Retry` makes all
five attempts instead of stopping after the first: the source contains no
client-error classification at all. -/
theorem Retry_client_error_not_short_circuited :
    specClientErrorStatus 404 = true ∧
    shortCircuits (GoError.transport ⟨404, ["MANIFEST_UNKNOWN"]⟩) = false ∧
    (Retry clientErrorFun).attempts = 5 ∧ ¬ (Retry clientErrorFun).attempts = 1 := by
  decide

/-- C3 (amended): every operation run under the retry policy is attempted at
most five times, with a fixed one-second delay after each failed retryable
attempt (hence between consecutive attempts); the loop stops at the first
success; a transport error whose first error code is UNAUTHORIZED
short-circuits the loop (wrapped as a non-retryable error), as does a
tar-entry-not-found error from the archive backend (returned as is). No
other error — in particular no other client error — short-circuits it. -/
theorem Retry_policy (f : Nat → Option GoError) :
    (Retry f).attempts ≤ 5 ∧
    (∀ k, k < 5 → (∀ j, j < k → ∃ e, f j = some e ∧ shortCircuits e = false) →
      ((f k = none → Retry f = ⟨k + 1, k, none⟩) ∧
       (∀ e, f k = some e → isUnauthorizedTransport e = true →
          Retry f = ⟨k + 1, k, some ("Non-retryable error: " ++ errString e)⟩) ∧
       (∀ e, f k = some e → isUnauthorizedTransport e = false →
          isTarEntryNotFound e = true →
          Retry f = ⟨k + 1, k, some (errString e)⟩))) := by
  constructor
  · exact retryAux_attempts_le f 5 0
  · intro k hk hpre
    have h := retryAux_firstStop f k 0 5 hk (by simpa using hpre)
    simpa [Retry] using h

/-- The operation used in the C3 witness: succeeds on the first attempt. -/
def retryDemoFun : Nat → Option GoError := fun _ => none

/-- C3 witness: at a concretely succeeding operation, `Retry` stops after one
attempt with no sleeps and no error. -/
theorem Retry_policy_witness :
    (0 < 5 ∧ retryDemoFun 0 = none) ∧ Retry retryDemoFun = ⟨1, 0, none⟩ :=
  ⟨⟨by decide, rfl⟩,
   ((Retry_policy retryDemoFun).2 0 (by decide)
     (fun j hj => absurd hj (Nat.not_lt_zero j))).1 rfl⟩

/-! ## Registry Gateway state and the bundle copy engine

The Copier and Locations Writer sources are not part of this tree (only
their end-to-end tests are), so this part is modelled from the
specification (§4.1 Registry Gateway, §4.4 Copier, §4.5 Locations Writer,
§6 Locations artifact tag). -/

/-- Modelled from the spec: the observable destination state of a Registry
Gateway — content-addressed blob and manifest stores keyed by (repository,
digest), and a tag map keyed by (repository, tag). The Copier source is not
in this tree. -/
@[ext]
structure RegState where
  blobs : String × Digest → Option String
  manifests : String × Digest → Option String
  tags : String × String → Option Digest

/-- Modelled from the spec: `put_blob` is idempotent on digest — if the
destination already holds a blob with this digest (checked by HEAD) the
upload is skipped, otherwise the bytes are streamed. -/
def putBlob (s : RegState) (repo : String) (d : Digest) (bytes : String) : RegState :=
  if (s.blobs (repo, d)).isSome then s
  else { s with blobs := Function.update s.blobs (repo, d) (some bytes) }

/-- Modelled from the spec: `put_manifest` writes the exact bytes provided,
never re-encoding. -/
def putManifest (s : RegState) (repo : String) (d : Digest) (bytes : String) : RegState :=
  { s with manifests := Function.update s.manifests (repo, d) (some bytes) }

/-- Modelled from the spec: tagging a destination manifest. -/
def tagManifest (s : RegState) (repo t : String) (d : Digest) : RegState :=
  { s with tags := Function.update s.tags (repo, t) (some d) }

/-- A resolved node of the image graph: its manifest digest and exact bytes,
its blobs (layers and config, each digest plus bytes), and whether it is a
bundle. -/
structure ImageNode where
  digest : Digest
  manifestBytes : String
  nodeBlobs : List (Digest × String)
  isBundle : Bool

/-- Modelled from the spec (§4.4 Copier, not in this tree): HEAD the
destination; if the manifest is already present the node is marked copied;
otherwise every blob is uploaded and then the manifest is PUT exactly as
received (after all of its blobs). -/
def copyNode (repo : String) (n : ImageNode) (s : RegState) : RegState :=
  if (s.manifests (repo, n.digest)).isSome then s
  else
    putManifest (n.nodeBlobs.foldl (fun t bd => putBlob t repo bd.1 bd.2) s)
      repo n.digest n.manifestBytes

/-- Modelled from the spec: realize every resolved node in the destination
repository. -/
def copyNodes (repo : String) (ns : List ImageNode) (s : RegState) : RegState :=
  ns.foldl (fun t n => copyNode repo n t) s

/-- Modelled from the spec (§6): one `images:` entry of the locations file,
with the image reference and whether it is a bundle. -/
def imageLocationEntry (e : String × Bool) : String :=
  "- image: " ++ e.1 ++ "\n  isBundle: " ++ (if e.2 then "true" else "false") ++ "\n"

/-- Modelled from the spec (§6, §9): deterministic serialization of the
LocationsConfig as `image-locations.yml`, with stable key order. -/
def serializeLocations (refs : List (String × Bool)) : String :=
  "apiVersion: imgpkg.carvel.dev/v1alpha1\nkind: ImageLocations\nimages:\n" ++
    String.join (refs.map imageLocationEntry)

/-- Modelled from the spec: the files inside the single layer of the
locations artifact. -/
def locationsLayerFiles (refs : List (String × Bool)) : List (String × String) :=
  [("image-locations.yml", serializeLocations refs)]

/-- Modelled from the spec: deterministic encoding of a layer's tar entries
(path plus contents) as the layer's byte stream. -/
def serializeLayer (files : List (String × String)) : String :=
  String.join (files.map (fun f => f.1 ++ "\n" ++ f.2))

/-- Modelled from the spec (§6): the locations artifact tag derived from the
bundle digest. -/
def locationsTag (d : Digest) : String :=
  d.algorithm ++ "-" ++ d.hex ++ ".image-locations.imgpkg"

/-- The byte stream of the locations artifact's single layer. -/
def locationsLayerBytes (refs : List (String × Bool)) : String :=
  serializeLayer (locationsLayerFiles refs)

/-- Modelled from the spec: the deterministic manifest bytes of the
single-layer OCI image wrapping the locations config, a function of the
layer's digest only. -/
def locationsManifestBytes (layerDigest : Digest) : String :=
  "locations-image-manifest layer " ++ layerDigest.algorithm ++ ":" ++ layerDigest.hex

/-- The digest the locations artifact tag resolves to, for a given hash
function over manifest bytes. -/
def locationsManifestDigest (hash : String → Digest) (refs : List (String × Bool)) : Digest :=
  hash (locationsManifestBytes (hash (locationsLayerBytes refs)))

/-- Modelled from the spec (§4.5 Locations Writer, not in this tree): wrap
the locations config as a single-layer image and push it under the tag
derived from the bundle's digest. -/
def writeLocations (hash : String → Digest) (repo : String) (bundleDigest : Digest)
    (refs : List (String × Bool)) (s : RegState) : RegState :=
  let layerBytes := locationsLayerBytes refs
  let layerDigest := hash layerBytes
  let manifestBytes := locationsManifestBytes layerDigest
  let manifestDigest := hash manifestBytes
  tagManifest
    (putManifest (putBlob s repo layerDigest layerBytes) repo manifestDigest manifestBytes)
    repo (locationsTag bundleDigest) manifestDigest

/-- Modelled from the spec: a bundle as the Copier sees it — its digest, its
resolved node set, and the image references recorded in its locations
config. -/
structure BundleDescriptor where
  digest : Digest
  nodes : List ImageNode
  refs : List (String × Bool)

/-- Modelled from the spec: a full bundle copy — realize every node, then
publish the locations artifact. -/
def copyBundle (hash : String → Digest) (repo : String) (b : BundleDescriptor)
    (s : RegState) : RegState :=
  writeLocations hash repo b.digest b.refs (copyNodes repo b.nodes s)

/-- Entries already present in a store stay present under an update. -/
theorem isSome_update {α β : Type} [DecidableEq α] (f : α → Option β) (a : α) (v : β)
    (x : α) (h : (f x).isSome) : ((Function.update f a (some v)) x).isSome := by
  rcases eq_or_ne x a with rfl | hx
  · simp
  · simpa [Function.update_noteq hx]

/-- Updating a store at a key with the value it already holds is a no-op. -/
theorem update_eq_of_lookup {α β : Type} [DecidableEq α] (f : α → Option β) (a : α)
    (v : Option β) (h : f a = v) : Function.update f a v = f := by
  funext x
  rcases eq_or_ne x a with rfl | hx
  · simp [h]
  · simp [Function.update_noteq hx]

/-- One gateway state preserves another: everything present in the first is
present in the second. All copy-engine operations only ever add entries. -/
def Preserves (s t : RegState) : Prop :=
  (∀ k, (s.blobs k).isSome → (t.blobs k).isSome) ∧
  (∀ k, (s.manifests k).isSome → (t.manifests k).isSome) ∧
  (∀ k, (s.tags k).isSome → (t.tags k).isSome)

theorem preserves_refl (s : RegState) : Preserves s s :=
  ⟨fun _ h => h, fun _ h => h, fun _ h => h⟩

theorem preserves_trans {s t u : RegState} (h1 : Preserves s t) (h2 : Preserves t u) :
    Preserves s u :=
  ⟨fun k h => h2.1 k (h1.1 k h),
   fun k h => h2.2.1 k (h1.2.1 k h),
   fun k h => h2.2.2 k (h1.2.2 k h)⟩

theorem putBlob_preserves (s : RegState) (repo : String) (d : Digest) (b : String) :
    Preserves s (putBlob s repo d b) := by
  unfold putBlob
  split
  · exact preserves_refl s
  · exact ⟨fun k h => isSome_update _ _ _ k h, fun _ h => h, fun _ h => h⟩

theorem putManifest_preserves (s : RegState) (repo : String) (d : Digest) (b : String) :
    Preserves s (putManifest s repo d b) :=
  ⟨fun _ h => h, fun k h => isSome_update _ _ _ k h, fun _ h => h⟩

theorem tagManifest_preserves (s : RegState) (repo t : String) (d : Digest) :
    Preserves s (tagManifest s repo t d) :=
  ⟨fun _ h => h, fun _ h => h, fun k h => isSome_update _ _ _ k h⟩

theorem foldBlobs_preserves (repo : String) (l : List (Digest × String)) :
    ∀ s : RegState, Preserves s (l.foldl (fun t bd => putBlob t repo bd.1 bd.2) s) := by
  induction l with
  | nil => intro s; exact preserves_refl s
  | cons bd l ih =>
    intro s
    exact preserves_trans (putBlob_preserves s repo bd.1 bd.2) (ih _)

theorem copyNode_preserves (repo : String) (n : ImageNode) (s : RegState) :
    Preserves s (copyNode repo n s) := by
  unfold copyNode
  split
  · exact preserves_refl s
  · exact preserves_trans (foldBlobs_preserves repo n.nodeBlobs s)
      (putManifest_preserves _ repo n.digest n.manifestBytes)

theorem copyNodes_preserves (repo : String) (ns : List ImageNode) :
    ∀ s : RegState, Preserves s (copyNodes repo ns s) := by
  induction ns with
  | nil => intro s; exact preserves_refl s
  | cons n ns ih =>
    intro s
    exact preserves_trans (copyNode_preserves repo n s) (ih _)

theorem writeLocations_preserves (hash : String → Digest) (repo : String)
    (bd : Digest) (refs : List (String × Bool)) (s : RegState) :
    Preserves s (writeLocations hash repo bd refs s) := by
  unfold writeLocations
  exact preserves_trans (putBlob_preserves ..)
    (preserves_trans (putManifest_preserves ..) (tagManifest_preserves ..))

/-- `putBlob` never touches the manifest store. -/
theorem putBlob_manifests (s : RegState) (repo : String) (d : Digest) (b : String) :
    (putBlob s repo d b).manifests = s.manifests := by
  unfold putBlob; split <;> rfl

/-- `putBlob` never touches the tag store. -/
theorem putBlob_tags (s : RegState) (repo : String) (d : Digest) (b : String) :
    (putBlob s repo d b).tags = s.tags := by
  unfold putBlob; split <;> rfl

theorem putBlob_isSome_self (s : RegState) (repo : String) (d : Digest) (b : String) :
    ((putBlob s repo d b).blobs (repo, d)).isSome := by
  unfold putBlob
  split
  · assumption
  · simp

theorem foldBlobs_manifests (repo : String) (l : List (Digest × String)) :
    ∀ s : RegState,
      (l.foldl (fun t bd => putBlob t repo bd.1 bd.2) s).manifests = s.manifests := by
  induction l with
  | nil => intro s; rfl
  | cons bd l ih =>
    intro s
    rw [List.foldl_cons, ih, putBlob_manifests]

theorem copyNode_manifest_isSome (repo : String) (n : ImageNode) (s : RegState) :
    ((copyNode repo n s).manifests (repo, n.digest)).isSome := by
  unfold copyNode
  split
  · assumption
  · simp [putManifest]

theorem copyNodes_manifest_isSome (repo : String) (ns : List ImageNode) :
    ∀ s : RegState, ∀ n ∈ ns, ((copyNodes repo ns s).manifests (repo, n.digest)).isSome := by
  induction ns with
  | nil => intro s n hn; cases hn
  | cons m ms ih =>
    intro s n hn
    rw [copyNodes, List.foldl_cons]
    rcases List.mem_cons.mp hn with rfl | hn
    · exact (copyNodes_preserves repo ms (copyNode repo n s)).2.1 _
        (copyNode_manifest_isSome repo n s)
    · exact ih (copyNode repo m s) n hn

theorem copyNode_skip (repo : String) (n : ImageNode) (s : RegState)
    (h : (s.manifests (repo, n.digest)).isSome) : copyNode repo n s = s := by
  unfold copyNode
  rw [if_pos h]

theorem copyNodes_skip (repo : String) (ns : List ImageNode) :
    ∀ s : RegState, (∀ n ∈ ns, (s.manifests (repo, n.digest)).isSome) →
      copyNodes repo ns s = s := by
  induction ns with
  | nil => intro s _; rfl
  | cons m ms ih =>
    intro s h
    rw [copyNodes, List.foldl_cons, copyNode_skip repo m s (h m (List.mem_cons_self m ms))]
    exact ih s fun n hn => h n (List.mem_cons_of_mem m hn)

theorem putBlob_noop (s : RegState) (repo : String) (d : Digest) (b : String)
    (h : (s.blobs (repo, d)).isSome) : putBlob s repo d b = s := by
  unfold putBlob
  rw [if_pos h]

theorem putManifest_noop (s : RegState) (repo : String) (d : Digest) (b : String)
    (h : s.manifests (repo, d) = some b) : putManifest s repo d b = s := by
  unfold putManifest
  rw [update_eq_of_lookup _ _ _ h]

theorem tagManifest_noop (s : RegState) (repo t : String) (d : Digest)
    (h : s.tags (repo, t) = some d) : tagManifest s repo t d = s := by
  unfold tagManifest
  rw [update_eq_of_lookup _ _ _ h]

/-- Running the Locations Writer twice in a row writes the same bytes to the
same keys, so the second run is a no-op. -/
theorem writeLocations_fixpoint (hash : String → Digest) (repo : String)
    (bd : Digest) (refs : List (String × Bool)) (s : RegState) :
    writeLocations hash repo bd refs (writeLocations hash repo bd refs s) =
      writeLocations hash repo bd refs s := by
  have hblob : ((writeLocations hash repo bd refs s).blobs
      (repo, hash (locationsLayerBytes refs))).isSome := by
    show ((tagManifest (putManifest (putBlob s repo _ _) repo _ _) repo _ _).blobs _).isSome
    rw [show ∀ u : RegState, ∀ a b c, (tagManifest u a b c).blobs = u.blobs from fun _ _ _ _ => rfl]
    show ((putBlob s repo _ _).blobs _).isSome
    exact putBlob_isSome_self ..
  have hman : (writeLocations hash repo bd refs s).manifests
      (repo, hash (locationsManifestBytes (hash (locationsLayerBytes refs)))) =
      some (locationsManifestBytes (hash (locationsLayerBytes refs))) := by
    show (tagManifest (putManifest (putBlob s repo _ _) repo _ _) repo _ _).manifests _ =
      some _
    rw [show ∀ u : RegState, ∀ a b c, (tagManifest u a b c).manifests = u.manifests
      from fun _ _ _ _ => rfl]
    show Function.update _ _ _ _ = _
    simp
  have htag : (writeLocations hash repo bd refs s).tags (repo, locationsTag bd) =
      some (hash (locationsManifestBytes (hash (locationsLayerBytes refs)))) := by
    show (tagManifest (putManifest (putBlob s repo _ _) repo _ _) repo _ _).tags _ = some _
    show Function.update _ _ _ _ = _
    simp
  conv_lhs => rw [writeLocations]
  rw [putBlob_noop _ _ _ _ hblob, putManifest_noop _ _ _ _ hman,
    tagManifest_noop _ _ _ _ htag]

/-- Running a full bundle copy twice in a row leaves the destination exactly
as after one run. -/
theorem copyBundle_idem (hash : String → Digest) (repo : String) (b : BundleDescriptor)
    (s : RegState) :
    copyBundle hash repo b (copyBundle hash repo b s) = copyBundle hash repo b s := by
  unfold copyBundle
  have hpres : ∀ n ∈ b.nodes,
      ((writeLocations hash repo b.digest b.refs (copyNodes repo b.nodes s)).manifests
        (repo, n.digest)).isSome := by
    intro n hn
    exact (writeLocations_preserves hash repo b.digest b.refs _).2.1 _
      (copyNodes_manifest_isSome repo b.nodes s n hn)
  rw [copyNodes_skip repo b.nodes _ hpres, writeLocations_fixpoint]

/-- After any bundle copy the locations tag resolves to the deterministic
digest of the locations artifact manifest. -/
theorem copyBundle_locations_tag (hash : String → Digest) (repo : String)
    (b : BundleDescriptor) (s : RegState) :
    (copyBundle hash repo b s).tags (repo, locationsTag b.digest) =
      some (locationsManifestDigest hash b.refs) := by
  show (tagManifest (putManifest (putBlob _ repo _ _) repo _ _) repo
    (locationsTag b.digest) _).tags _ = _
  show Function.update _ _ _ _ = _
  simp [locationsManifestDigest]

/-- C1: for every bundle, destination repository, hash function and initial
destination state, repeating the copy of that bundle to that repository any
number of times yields the identical destination state (the same manifests
and blobs as a single run), and the published locations tag resolves to the
same manifest digest on every run. -/
theorem copy_idempotent (hash : String → Digest) (repo : String)
    (b : BundleDescriptor) (s : RegState) (n : Nat) :
    (copyBundle hash repo b)^[n + 1] s = copyBundle hash repo b s ∧
    ((copyBundle hash repo b)^[n + 1] s).tags (repo, locationsTag b.digest) =
      some (locationsManifestDigest hash b.refs) := by
  have hiter : ∀ m, (copyBundle hash repo b)^[m + 1] s = copyBundle hash repo b s := by
    intro m
    induction m with
    | zero => rfl
    | succ m ih =>
      rw [Function.iterate_succ_apply', ih, copyBundle_idem]
  refine ⟨hiter n, ?_⟩
  rw [hiter n]
  exact copyBundle_locations_tag hash repo b s

/-- C7: after a bundle copy to a destination repository the locations
artifact for that bundle is published under exactly the tag
`<algo>-<hex>.image-locations.imgpkg` derived from the bundle's digest, and
its single layer contains a file `image-locations.yml` whose body carries
apiVersion imgpkg.carvel.dev/v1alpha1, kind ImageLocations, and one
image/isBundle entry per image referenced by the bundle. -/
theorem locations_artifact_shape (hash : String → Digest) (repo : String)
    (b : BundleDescriptor) (s : RegState) :
    locationsTag b.digest =
      b.digest.algorithm ++ "-" ++ b.digest.hex ++ ".image-locations.imgpkg" ∧
    (copyBundle hash repo b s).tags
      (repo, b.digest.algorithm ++ "-" ++ b.digest.hex ++ ".image-locations.imgpkg") =
      some (locationsManifestDigest hash b.refs) ∧
    locationsLayerFiles b.refs =
      [("image-locations.yml",
        "apiVersion: imgpkg.carvel.dev/v1alpha1\nkind: ImageLocations\nimages:\n" ++
          String.join (b.refs.map (fun e =>
            "- image: " ++ e.1 ++ "\n  isBundle: " ++
              (if e.2 then "true" else "false") ++ "\n")))] := by
  refine ⟨rfl, ?_, rfl⟩
  exact copyBundle_locations_tag hash repo b s

/-! ## References and the Lock Rewriter (pull path)

The Lock Rewriter source is not part of this tree (only its end-to-end
tests are), so this part is modelled from the specification (§3 Reference,
§4.6 Lock Rewriter). -/

/-- Modelled from the spec (§3): the identifier of a parsed registry
coordinate, either a mutable tag or an immutable digest. -/
inductive Identifier where
  | tag (t : String)
  | digest (d : Digest)
deriving DecidableEq, Repr

/-- Modelled from the spec (§3): a parsed registry coordinate with registry
host, repository path and identifier. -/
structure Reference where
  host : String
  repository : String
  id : Identifier
deriving DecidableEq, Repr

/-- True iff a reference's identifier is a digest (never a bare tag). -/
def isDigestId : Identifier → Bool
  | .digest _ => true
  | .tag _ => false

/-- One entry of an `.imgpkg/images.yml` document: an image reference plus
optional annotations. -/
structure ImageRef where
  ref : Reference
  annotations : List (String × String)
deriving DecidableEq, Repr

/-- The `.imgpkg/images.yml` (ImagesLock) document. -/
structure ImagesLock where
  apiVersion : String
  kind : String
  images : List ImageRef
deriving DecidableEq, Repr

/-- Modelled from the spec (§4.6 step 4, Lock Rewriter not in this tree):
rewrite one entry's `image` field to `<bundle-repository>@<digest>`,
preserving its annotations; entries with a bare tag (which the ImagesLock
invariant forbids) are left alone. -/
def rewriteImageRef (host repository : String) (e : ImageRef) : ImageRef :=
  match e.ref.id with
  | .digest d => { e with ref := ⟨host, repository, .digest d⟩ }
  | .tag _ => e

/-- Modelled from the spec (§4.6): rewrite every entry of the extracted
images.yml to the bundle's current repository, leaving apiVersion and kind
unchanged. -/
def rewriteImagesLock (host repository : String) (lock : ImagesLock) : ImagesLock :=
  { lock with images := lock.images.map (rewriteImageRef host repository) }

/-- C2: after pulling a bundle, every entry of the rewritten images.yml is a
digest reference carrying the original entry's digest, whose repository
equals the repository the bundle was pulled from, with the entry's
annotations unchanged; apiVersion and kind are untouched. -/
theorem pull_lock_fidelity (host repository : String) (lock : ImagesLock)
    (h : ∀ e ∈ lock.images, isDigestId e.ref.id = true) :
    List.Forall₂ (fun e e' =>
        e'.ref.host = host ∧ e'.ref.repository = repository ∧
        e'.ref.id = e.ref.id ∧ isDigestId e'.ref.id = true ∧
        e'.annotations = e.annotations)
      lock.images (rewriteImagesLock host repository lock).images ∧
    (rewriteImagesLock host repository lock).apiVersion = lock.apiVersion ∧
    (rewriteImagesLock host repository lock).kind = lock.kind := by
  refine ⟨?_, rfl, rfl⟩
  show List.Forall₂ _ lock.images (lock.images.map (rewriteImageRef host repository))
  have hgen : ∀ l : List ImageRef, (∀ e ∈ l, isDigestId e.ref.id = true) →
      List.Forall₂ (fun e e' =>
        e'.ref.host = host ∧ e'.ref.repository = repository ∧
        e'.ref.id = e.ref.id ∧ isDigestId e'.ref.id = true ∧
        e'.annotations = e.annotations) l (l.map (rewriteImageRef host repository)) := by
    intro l
    induction l with
    | nil => intro _; exact List.Forall₂.nil
    | cons e es ih =>
      intro hl
      have he := hl e (List.mem_cons_self e es)
      refine List.Forall₂.cons ?_ (ih fun x hx => hl x (List.mem_cons_of_mem e hx))
      cases hid : e.ref.id with
      | tag t => rw [hid] at he; simp [isDigestId] at he
      | digest d =>
        refine ⟨?_, ?_, ?_, ?_, ?_⟩ <;> simp [rewriteImageRef, hid, isDigestId]
  exact hgen lock.images h

/-- Concrete images.yml used by the C2 witness: a single hello-world entry
pinned by digest, with one annotation. -/
def demoLock : ImagesLock :=
  { apiVersion := "imgpkg.carvel.dev/v1alpha1"
    kind := "ImagesLock"
    images := [
      { ref := ⟨"index.docker.io", "library/hello-world",
          .digest ⟨"sha256", "ebf526c198a14fa138634b9746c50ec38077ec9b3986227e79eb837d26f59dc6"⟩⟩
        annotations := [("a", "b")] }] }

/-- C2 witness: the fidelity theorem applied to the concrete lock, pulled
from repository example/copied-bundle on registry registry.example.com. -/
theorem pull_lock_fidelity_witness :
    (∀ e ∈ demoLock.images, isDigestId e.ref.id = true) ∧
    (List.Forall₂ (fun e e' =>
        e'.ref.host = "registry.example.com" ∧
        e'.ref.repository = "example/copied-bundle" ∧
        e'.ref.id = e.ref.id ∧ isDigestId e'.ref.id = true ∧
        e'.annotations = e.annotations)
      demoLock.images
      (rewriteImagesLock "registry.example.com" "example/copied-bundle" demoLock).images ∧
    (rewriteImagesLock "registry.example.com" "example/copied-bundle" demoLock).apiVersion =
      demoLock.apiVersion ∧
    (rewriteImagesLock "registry.example.com" "example/copied-bundle" demoLock).kind =
      demoLock.kind) :=
  ⟨by decide,
   pull_lock_fidelity "registry.example.com" "example/copied-bundle" demoLock (by decide)⟩

/-! ## Recursive pull of bundles of bundles (spec-modelled, §4.6 step 6) -/

/-- Modelled from the spec: deterministic serialization of a reference as
`host/repository:tag` or `host/repository@algo:hex`. -/
def refString (r : Reference) : String :=
  r.host ++ "/" ++ r.repository ++
    (match r.id with
     | .tag t => ":" ++ t
     | .digest d => "@" ++ d.algorithm ++ ":" ++ d.hex)

/-- Modelled from the spec: serialization of one entry's annotations block. -/
def serializeAnnotations (l : List (String × String)) : String :=
  match l with
  | [] => ""
  | _ => "  annotations:\n" ++
      String.join (l.map (fun a => "    " ++ a.1 ++ ": " ++ a.2 ++ "\n"))

/-- Modelled from the spec: serialization of one images.yml entry. -/
def serializeImageEntry (e : ImageRef) : String :=
  "- image: " ++ refString e.ref ++ "\n" ++ serializeAnnotations e.annotations

/-- Modelled from the spec: deterministic serialization of an ImagesLock
document as images.yml. -/
def serializeLock (lock : ImagesLock) : String :=
  "---\napiVersion: " ++ lock.apiVersion ++ "\nkind: " ++ lock.kind ++ "\nimages:\n" ++
    String.join (lock.images.map serializeImageEntry)

/-- Modelled from the spec: a bundle with its digest, its `.imgpkg/bundle.yml`
contents, its ImagesLock, and the entries of that lock that are themselves
bundles (per the Locations artifact or by inspection). -/
inductive BundleTree where
  | node (digest : Digest) (bundleYml : String) (lock : ImagesLock)
      (children : List BundleTree)

def BundleTree.digest : BundleTree → Digest
  | .node d _ _ _ => d

def BundleTree.bundleYml : BundleTree → String
  | .node _ b _ _ => b

def BundleTree.lock : BundleTree → ImagesLock
  | .node _ _ l _ => l

def BundleTree.children : BundleTree → List BundleTree
  | .node _ _ _ c => c

/-- The directory name for a nested bundle: the digest with `:` replaced by
`-`, i.e. `<algo>-<hex>`. -/
def digestSlug (d : Digest) : String := d.algorithm ++ "-" ++ d.hex

mutual

/-- Modelled from the spec (§4.6, Lock Rewriter not in this tree): pull with
`--recursive` — extract the bundle's `.imgpkg` files to the output
directory with the images.yml rewritten to the current repository, then
recurse into every entry that is itself a bundle, extracting it under
`.imgpkg/bundles/<algo>-<hex>/`. Returns the list of written files (path,
contents). -/
def extractBundle (host repository outDir : String) : BundleTree → List (String × String)
  | .node _ byml lock children =>
      (outDir ++ "/.imgpkg/bundle.yml", byml) ::
      (outDir ++ "/.imgpkg/images.yml",
        serializeLock (rewriteImagesLock host repository lock)) ::
      extractChildren host repository outDir children

/-- Recursion of `extractBundle` over the nested bundles of one bundle. -/
def extractChildren (host repository outDir : String) :
    List BundleTree → List (String × String)
  | [] => []
  | c :: cs =>
      extractBundle host repository
        (outDir ++ "/.imgpkg/bundles/" ++ digestSlug c.digest) c ++
      extractChildren host repository outDir cs

end

theorem extractBundle_self_files (host repository dir : String) (t : BundleTree) :
    (dir ++ "/.imgpkg/bundle.yml", t.bundleYml) ∈ extractBundle host repository dir t ∧
    (dir ++ "/.imgpkg/images.yml",
      serializeLock (rewriteImagesLock host repository t.lock)) ∈
      extractBundle host repository dir t := by
  cases t with
  | node d byml lock children =>
    constructor
    · exact List.mem_cons_self _ _
    · exact List.mem_cons_of_mem _ (List.mem_cons_self _ _)

theorem extractChildren_mem (host repository outDir : String) :
    ∀ (cs : List BundleTree), ∀ c ∈ cs, ∀ x,
      x ∈ extractBundle host repository
        (outDir ++ "/.imgpkg/bundles/" ++ digestSlug c.digest) c →
      x ∈ extractChildren host repository outDir cs := by
  intro cs
  induction cs with
  | nil => intro c hc; cases hc
  | cons c' cs' ih =>
    intro c hc x hx
    rw [extractChildren]
    rcases List.mem_cons.mp hc with rfl | hc
    · exact List.mem_append_left _ hx
    · exact List.mem_append_right _ (ih c hc x hx)

/-- C6: when pull runs with `--recursive` on a bundle, every entry of its
ImagesLock that is itself a bundle is extracted under
`.imgpkg/bundles/<algo>-<hex>/` of the output directory (the digest's `:`
replaced by `-`), including that nested bundle's own `.imgpkg/bundle.yml`
and `.imgpkg/images.yml`, the latter rewritten to the current repository. -/
theorem recursive_pull_nested_bundles (host repository outDir : String)
    (b c : BundleTree) (hc : c ∈ b.children) :
    (outDir ++ "/.imgpkg/bundles/" ++ c.digest.algorithm ++ "-" ++ c.digest.hex ++
        "/.imgpkg/bundle.yml", c.bundleYml) ∈
      extractBundle host repository outDir b ∧
    (outDir ++ "/.imgpkg/bundles/" ++ c.digest.algorithm ++ "-" ++ c.digest.hex ++
        "/.imgpkg/images.yml",
      serializeLock (rewriteImagesLock host repository c.lock)) ∈
      extractBundle host repository outDir b := by
  cases b with
  | node d byml lock children =>
    have hc' : c ∈ children := hc
    have hdir : outDir ++ "/.imgpkg/bundles/" ++ c.digest.algorithm ++ "-" ++
        c.digest.hex = outDir ++ "/.imgpkg/bundles/" ++ digestSlug c.digest := by
      simp [digestSlug, String.append_assoc]
    have hself := extractBundle_self_files host repository
      (outDir ++ "/.imgpkg/bundles/" ++ digestSlug c.digest) c
    rw [extractBundle]
    constructor
    · refine List.mem_cons_of_mem _ (List.mem_cons_of_mem _ ?_)
      rw [hdir]
      exact extractChildren_mem host repository outDir children c hc' _ hself.1
    · refine List.mem_cons_of_mem _ (List.mem_cons_of_mem _ ?_)
      rw [hdir]
      exact extractChildren_mem host repository outDir children c hc' _ hself.2

/-- The nested bundle of the C6 witness. -/
def demoChildBundle : BundleTree :=
  .node ⟨"sha256", "aaaa"⟩ "apiVersion: imgpkg.carvel.dev/v1alpha1\nkind: Bundle\n"
    demoLock []

/-- The outer bundle of the C6 witness, containing one nested bundle. -/
def demoOuterBundle : BundleTree :=
  .node ⟨"sha256", "ffff"⟩ "apiVersion: imgpkg.carvel.dev/v1alpha1\nkind: Bundle\n"
    { apiVersion := "imgpkg.carvel.dev/v1alpha1", kind := "ImagesLock", images := [] }
    [demoChildBundle]

/-- C6 witness: the recursive-pull theorem applied to the concrete
two-level bundle. -/
theorem recursive_pull_nested_bundles_witness :
    demoChildBundle ∈ demoOuterBundle.children ∧
    (("out/.imgpkg/bundles/" ++ demoChildBundle.digest.algorithm ++ "-" ++
        demoChildBundle.digest.hex ++ "/.imgpkg/bundle.yml",
      demoChildBundle.bundleYml) ∈
      extractBundle "registry.example.com" "example/copied-bundle" "out"
        demoOuterBundle ∧
     ("out/.imgpkg/bundles/" ++ demoChildBundle.digest.algorithm ++ "-" ++
        demoChildBundle.digest.hex ++ "/.imgpkg/images.yml",
      serializeLock (rewriteImagesLock "registry.example.com" "example/copied-bundle"
        demoChildBundle.lock)) ∈
      extractBundle "registry.example.com" "example/copied-bundle" "out"
        demoOuterBundle) :=
  ⟨List.mem_cons_self _ _,
   recursive_pull_nested_bundles "registry.example.com" "example/copied-bundle" "out"
     demoOuterBundle demoChildBundle (List.mem_cons_self _ _)⟩

/-! ## Pull command input validation

pull.go is not part of this tree; its validation behaviour is modelled from
the spec's mixed-input and lock-kind-mismatch error kinds, with the exact
messages pinned by the unit tests in pkg/imgpkg/cmd/pull_test.go. -/

/-- Modelled from the spec: the inputs of PullOptions.Run as far as its
input validation is concerned. `lockKind` is the `kind` field parsed from
the lock file at `lockPath` (unused unless `lockPath` is given). -/
structure PullInputs where
  image : String
  bundleRef : String
  lockPath : String
  lockKind : String
deriving DecidableEq, Repr

/-- How many of the three mutually exclusive inputs are set. -/
def setFlagsCount (p : PullInputs) : Nat :=
  (if p.image = "" then 0 else 1) + (if p.bundleRef = "" then 0 else 1) +
    (if p.lockPath = "" then 0 else 1)

/-- Modelled from the spec (mixed-input error kind; pull.go not in this
tree): flag validation of PullOptions.Run — exactly one of image, bundle,
or lock must be given. -/
def pullValidate (p : PullInputs) : Option String :=
  if setFlagsCount p = 0 then some "Expected either image, bundle, or lock"
  else if 2 ≤ setFlagsCount p then some "Expected only one of image, bundle, or lock"
  else none

/-- Modelled from the spec (pull.go not in this tree): PullOptions.Run —
validate the flags, then for a lock-file input check that the lock's kind
is BundleLock, and only then perform the pull. Every registry access
happens inside `doPull`, so an error produced before `doPull` is invoked
happens before any registry access. -/
def PullOptions.Run (p : PullInputs) (doPull : Unit → Except String Unit) :
    Except String Unit :=
  match pullValidate p with
  | some e => .error e
  | none =>
    if p.lockPath = "" then doPull ()
    else if p.lockKind = "BundleLock" then doPull ()
    else .error ("Invalid `kind` in lockfile at " ++ p.lockPath ++
        ". Expected: BundleLock, got: " ++ p.lockKind)

/-- C8: PullOptions.Run fails before any registry access (i.e. for every
possible `doPull`, without invoking it) when its inputs are invalid: with
none of image, bundle and lock set it returns the
"Expected either image, bundle, or lock" error, and with more than one of
them set it returns the "Expected only one of image, bundle, or lock"
error. -/
theorem pull_input_validation (p : PullInputs) (doPull : Unit → Except String Unit) :
    ((p.image = "" ∧ p.bundleRef = "" ∧ p.lockPath = "") →
      PullOptions.Run p doPull = .error "Expected either image, bundle, or lock") ∧
    (2 ≤ setFlagsCount p →
      PullOptions.Run p doPull = .error "Expected only one of image, bundle, or lock") := by
  constructor
  · rintro ⟨h1, h2, h3⟩
    have h0 : setFlagsCount p = 0 := by simp [setFlagsCount, h1, h2, h3]
    simp [PullOptions.Run, pullValidate, h0]
  · intro h
    have h0 : ¬ setFlagsCount p = 0 := by omega
    simp [PullOptions.Run, pullValidate, h0, h]

/-- C8 witness: at the mixed input of the unit test (image, bundle and lock
all set) the run fails with the mixed-input message, whatever the pull
action would have been. -/
theorem pull_input_validation_witness :
    2 ≤ setFlagsCount ⟨"image@123456", "my-bundle", "lockpath", ""⟩ ∧
    PullOptions.Run ⟨"image@123456", "my-bundle", "lockpath", ""⟩ (fun _ => .ok ()) =
      .error "Expected only one of image, bundle, or lock" :=
  ⟨by decide,
   (pull_input_validation ⟨"image@123456", "my-bundle", "lockpath", ""⟩
     (fun _ => .ok ())).2 (by decide)⟩

/-- C9: when pull is given a lock file whose kind is not BundleLock,
PullOptions.Run returns the lock-kind-mismatch error naming the path and
the actual kind, and performs no pull (the result is this error for every
possible `doPull`). -/
theorem pull_lock_kind_mismatch (p : PullInputs) (doPull : Unit → Except String Unit)
    (h1 : p.image = "") (h2 : p.bundleRef = "") (h3 : p.lockPath ≠ "")
    (h4 : p.lockKind ≠ "BundleLock") :
    PullOptions.Run p doPull = .error ("Invalid `kind` in lockfile at " ++ p.lockPath ++
      ". Expected: BundleLock, got: " ++ p.lockKind) := by
  have hc : setFlagsCount p = 1 := by simp [setFlagsCount, h1, h2, h3]
  simp [PullOptions.Run, pullValidate, hc, h3, h4]

/-- C9 witness: at the lock file of the unit test, whose kind is
invalid-value. -/
theorem pull_lock_kind_mismatch_witness :
    (("" : String) = "" ∧ ("bundlelock.yml" : String) ≠ "" ∧
      ("invalid-value" : String) ≠ "BundleLock") ∧
    PullOptions.Run ⟨"", "", "bundlelock.yml", "invalid-value"⟩ (fun _ => .ok ()) =
      .error ("Invalid `kind` in lockfile at " ++ "bundlelock.yml" ++
        ". Expected: BundleLock, got: " ++ "invalid-value") :=
  ⟨⟨rfl, by decide, by decide⟩,
   pull_lock_kind_mismatch ⟨"", "", "bundlelock.yml", "invalid-value"⟩
     (fun _ => .ok ()) rfl rfl (by decide) (by decide)⟩

/-! ## Non-image rejection and the response-header timeout (spec-modelled) -/

/-- Modelled from the spec: the media-type classification of a resolved
top-level manifest. -/
inductive ManifestKind where
  | image
  | index
deriving DecidableEq, Repr

/-- Modelled from the spec (§4.2 non-image manifests; the plain-image pull
source is not in this tree): pulling with `-i` resolves the top-level
manifest; an image index fails with the non-image error (message pinned by
the e2e test TestPullImageIndexShouldError), otherwise the image's files
are extracted. -/
def pullPlainImage (kind : ManifestKind) (extract : Unit → List (String × String)) :
    Except String (List (String × String)) :=
  match kind with
  | .index => .error "Unable to pull non-images, such as image indexes. (hint: provide a specific digest to the image instead)"
  | .image => .ok (extract ())

/-- Modelled from the spec (§6 CLI): process exit code — 1 on any failure,
0 on success. -/
def exitCode {α : Type} : Except String α → Nat
  | .error _ => 1
  | .ok _ => 0

/-- The files a pull left on disk: none when it failed. -/
def extractedFiles : Except String (List (String × String)) → List (String × String)
  | .error _ => []
  | .ok fs => fs

/-- C4: for every reference whose top-level manifest is an image index,
pull with `-i` fails with exit code 1, the non-image error carrying the
hint string, and no files are extracted. -/
theorem pull_index_rejected (extract : Unit → List (String × String)) :
    pullPlainImage .index extract =
      .error "Unable to pull non-images, such as image indexes. (hint: provide a specific digest to the image instead)" ∧
    exitCode (pullPlainImage .index extract) = 1 ∧
    extractedFiles (pullPlainImage .index extract) = [] :=
  ⟨rfl, rfl, rfl⟩

/-- Modelled from the spec (§5 suspension points; the HTTP transport is not
in this tree): a registry request against a server that takes
`headerDelay` seconds to emit its response headers, under a
response-header timeout of `responseHeaderTimeout` seconds. Withholding
the headers longer than the timeout produces the Go transport's
timeout-awaiting-response-headers error. -/
def fetchWithHeaderTimeout (headerDelay responseHeaderTimeout : Nat) (body : String) :
    Except String String :=
  if responseHeaderTimeout < headerDelay then
    .error "net/http: timeout awaiting response headers"
  else .ok body

/-- C5: a source server that withholds response headers longer than the
configured response-header timeout makes the pull fail, with a failure
message containing the text "timeout awaiting response headers". -/
theorem pull_slow_server_times_out (headerDelay responseHeaderTimeout : Nat)
    (body : String) (h : responseHeaderTimeout < headerDelay) :
    ∃ msg, fetchWithHeaderTimeout headerDelay responseHeaderTimeout body = .error msg ∧
      ∃ pre post, msg = pre ++ "timeout awaiting response headers" ++ post := by
  refine ⟨"net/http: timeout awaiting response headers", ?_, "net/http: ", "", ?_⟩
  · simp [fetchWithHeaderTimeout, h]
  · rfl

/-- C5 witness: the e2e test's numbers — the server sleeps five seconds,
the timeout is one second. -/
theorem pull_slow_server_times_out_witness :
    1 < 5 ∧
    (∃ msg, fetchWithHeaderTimeout 5 1 "body" = .error msg ∧
      ∃ pre post, msg = pre ++ "timeout awaiting response headers" ++ post) :=
  ⟨by decide, pull_slow_server_times_out 5 1 "body" (by decide)⟩

/-! ## The version command (pkg/imgpkg/cmd/version.go) -/

/-- The `Version` package variable of pkg/imgpkg/cmd/version.go. -/
def Version : String := "develop"

/-- The effects VersionOptions.Run can perform, in order: printing a UI
block, starting the throwaway local TLS registry server, the raw println
of its URL, and sleeping. -/
inductive VersionEffect where
  | printBlock (s : String)
  | startTLSRegistryServer
  | printLn (s : String)
  | sleepMinutes (n : Nat)
deriving DecidableEq, Repr

/-- Shallow embedding of VersionOptions.Run (pkg/imgpkg/cmd/version.go):
print the version block, start a throwaway local TLS registry server,
println its URL, sleep 30 minutes, and return nil. `serverURL` abstracts
the URL httptest assigns to the server. -/
def VersionOptions.Run (serverURL : String) : List VersionEffect × Option String :=
  ([.printBlock ("imgpkg version " ++ Version ++ "\n"),
    .startTLSRegistryServer,
    .printLn serverURL,
    .sleepMinutes 30], none)

/-- True only for UI print-block effects. -/
def isPrintBlock : VersionEffect → Bool
  | .printBlock _ => true
  | _ => false

/-- C10: for every UI, the version command prints exactly one block — the
string "imgpkg version " followed by the Version variable and a newline —
and always returns nil, but only after starting a throwaway local TLS
registry server and sleeping 30 minutes (the full effect trace ends with
the sleep, so the command never returns promptly). -/
theorem version_run_behaviour (serverURL : String) :
    (VersionOptions.Run serverURL).2 = none ∧
    (VersionOptions.Run serverURL).1.filter isPrintBlock =
      [.printBlock ("imgpkg version " ++ Version ++ "\n")] ∧
    (VersionOptions.Run serverURL).1 =
      [.printBlock ("imgpkg version " ++ Version ++ "\n"),
       .startTLSRegistryServer, .printLn serverURL, .sleepMinutes 30] := by
  refine ⟨rfl, ?_, rfl⟩
  simp [VersionOptions.Run, isPrintBlock]

end Imgpkg
